import Mathlib

/-
Verification of the "jug-ocr" grape back-calculation application.

The repository has two source variants (src/src/App.tsx and src/unnamed/part_000)
containing the same two logical cores:
  - calcResultByCapture : the balance-equation solver inferring the hidden
    "grape" symbol count and probability from session statistics;
  - parseFromText : the OCR text extraction pipeline (normalization plus
    regex pattern matching of session fields and the machine model name).

Modelling choices:
  - JavaScript numbers are modelled by JSNum: an exact rational (no overflow or
    rounding is modelled; none of the claims concerns them), positive/negative
    infinity, or NaN, with arithmetic following the ECMAScript rules for these
    values.  Negative zero is not modelled (the code never distinguishes it).
  - JavaScript strings are modelled as lists of natural numbers (code points);
    every character relevant to this application is in the basic plane, where
    code points coincide with the UTF-16 code units that JS regexes see.
  - String.prototype.toLowerCase is modelled on the character repertoire this
    application can meet: ASCII letters, fullwidth Latin letters, and Roman
    numeral signs (the preset names contain ASCII letters and a Roman numeral);
    kana, kanji and punctuation are case-invariant in Unicode.
  - The regexes of parseFromText are embedded as specialized backtracking
    matchers, one per pattern, over the code-point lists, with JS semantics:
    leftmost match, alternatives and greedy quantifiers tried in order with
    backtracking.
-/

/- ===================== JS number model ===================== -/

inductive JSNum where
  | fin (q : ℚ)
  | inf (pos : Bool)
  | nan
deriving DecidableEq

namespace JSNum

def add : JSNum → JSNum → JSNum
  | nan, _ => nan
  | _, nan => nan
  | inf p, inf q => if p = q then inf p else nan
  | inf p, fin _ => inf p
  | fin _, inf q => inf q
  | fin a, fin b => fin (a + b)

def sub : JSNum → JSNum → JSNum
  | nan, _ => nan
  | _, nan => nan
  | inf p, inf q => if p = q then nan else inf p
  | inf p, fin _ => inf p
  | fin _, inf q => inf (!q)
  | fin a, fin b => fin (a - b)

def mul : JSNum → JSNum → JSNum
  | nan, _ => nan
  | _, nan => nan
  | inf p, inf q => inf (p == q)
  | inf p, fin b => if b = 0 then nan else inf (p == decide (0 < b))
  | fin a, inf q => if a = 0 then nan else inf (decide (0 < a) == q)
  | fin a, fin b => fin (a * b)

def div : JSNum → JSNum → JSNum
  | nan, _ => nan
  | _, nan => nan
  | inf _, inf _ => nan
  | inf p, fin b => if b = 0 then inf p else inf (p == decide (0 < b))
  | fin _, inf _ => fin 0
  | fin a, fin b => if b = 0 then (if a = 0 then nan else inf (decide (0 < a))) else fin (a / b)

/-- Math.max of two arguments: NaN absorbs, otherwise the larger value. -/
def max2 : JSNum → JSNum → JSNum
  | nan, _ => nan
  | _, nan => nan
  | inf true, _ => inf true
  | _, inf true => inf true
  | inf false, fin b => fin b
  | fin a, inf false => fin a
  | inf false, inf false => inf false
  | fin a, fin b => fin (max a b)

/-- The JS strict greater-than comparison: false whenever NaN is involved. -/
def gt : JSNum → JSNum → Bool
  | nan, _ => false
  | _, nan => false
  | inf true, inf true => false
  | inf true, _ => true
  | inf false, _ => false
  | fin _, inf true => false
  | fin _, inf false => true
  | fin a, fin b => decide (b < a)

instance : Add JSNum := ⟨add⟩
instance : Sub JSNum := ⟨sub⟩
instance : Mul JSNum := ⟨mul⟩
instance : Div JSNum := ⟨div⟩

end JSNum

/- ===================== Text model ===================== -/

/-- A JS string, as the list of its code points. -/
abbrev Text := List Nat

/-- Code points of a Lean string literal; used to transcribe the literals of the source. -/
def codes (s : String) : Text := s.data.map Char.toNat

/-- Decimal digit 0-9. -/
def isDigitC (n : Nat) : Bool := 0x30 ≤ n && n ≤ 0x39

/-- The ECMAScript regex class backslash-s (WhiteSpace and LineTerminator code points). -/
def isJsSpace (n : Nat) : Bool :=
  n = 0x9 || n = 0xA || n = 0xB || n = 0xC || n = 0xD || n = 0x20 ||
  n = 0xA0 || n = 0x1680 || (0x2000 ≤ n && n ≤ 0x200A) || n = 0x2028 ||
  n = 0x2029 || n = 0x202F || n = 0x205F || n = 0x3000 || n = 0xFEFF

/- ===================== Stage 1 normalization ===================== -/

/-- Fullwidth digit to ASCII digit; other code points unchanged.
    Embeds replace(/[uFF10-uFF19]/g, d => fromCharCode(code - 0xFF10 + 0x30)). -/
def fwDigitToAscii (n : Nat) : Nat :=
  if 0xFF10 ≤ n ∧ n ≤ 0xFF19 then n - 0xFF10 + 0x30 else n

/-- The class of the collapse step: space, comma, tab. -/
def isWCT (n : Nat) : Bool := n = 0x20 || n = 0x2C || n = 0x9

/-- Collapses every maximal run of space/comma/tab into a single space:
    replace(/[ ,t]+/g, " ").  The boolean remembers being inside a run. -/
def collapseAux : Text → Bool → Text
  | [], _ => []
  | c :: cs, inRun =>
    if isWCT c then
      if inRun then collapseAux cs true else 0x20 :: collapseAux cs true
    else c :: collapseAux cs false

def collapseWCT (l : Text) : Text := collapseAux l false

/-- replace(/,/g, "") : removes every comma. -/
def removeCommas (l : Text) : Text := l.filter (fun c => c ≠ 0x2C)

/-- Fullwidth capital G (U+FF27) to ASCII G. -/
def fwG (n : Nat) : Nat := if n = 0xFF27 then 0x47 else n

/-- Fullwidth minus (U+FF0D) to ASCII hyphen-minus. -/
def fwMinus (n : Nat) : Nat := if n = 0xFF0D then 0x2D else n

/-- Fullwidth plus (U+FF0B) to ASCII plus. -/
def fwPlus (n : Nat) : Nat := if n = 0xFF0B then 0x2B else n

/-- toLowerCase, on the character repertoire of this application: ASCII letters,
    fullwidth Latin capitals (U+FF21..U+FF3A) and capital Roman numerals
    (U+2160..U+216F); all other code points (kana, kanji, digits, punctuation)
    are case-invariant. -/
def jsToLower (n : Nat) : Nat :=
  if 0x41 ≤ n ∧ n ≤ 0x5A then n + 0x20
  else if 0xFF21 ≤ n ∧ n ≤ 0xFF3A then n + 0x20
  else if 0x2160 ≤ n ∧ n ≤ 0x216F then n + 0x10
  else n

/-- Stage 1 of parseFromText: fullwidth digits to ASCII, collapse space/comma/tab
    runs, strip commas, fullwidth G/minus/plus to ASCII, lowercase — in the
    source's order of chained replaces. -/
def normalizeText (l : Text) : Text :=
  ((((removeCommas (collapseWCT (l.map fwDigitToAscii))).map fwG).map fwMinus).map
    fwPlus).map jsToLower

/- ===================== Matcher combinators ===================== -/

/-- Consumes a literal sequence, returning the rest. -/
def dropLit : Text → Text → Option Text
  | [], l => some l
  | _ :: _, [] => none
  | p :: ps, c :: cs => if c = p then dropLit ps cs else none

/-- Greedy backslash-s-star. -/
def skipSpaces (l : Text) : Text := l.dropWhile isJsSpace

/-- Greedy [:：]? (ASCII or fullwidth colon, optional). -/
def skipOptColon : Text → Text
  | [] => []
  | c :: cs => if c = 0x3A ∨ c = 0xFF1A then cs else c :: cs

/-- Greedy digit repetition of at most k digits; returns taken digits and rest. -/
def takeDigitsUpTo : Nat → Text → Text × Text
  | _, [] => ([], [])
  | 0, l => ([], l)
  | k + 1, c :: cs =>
    if isDigitC c then
      let p := takeDigitsUpTo k cs
      (c :: p.1, p.2)
    else ([], c :: cs)

/-- After a matched keyword: backslash-s-star [:：]? backslash-s-star (d{lo,hi}),
    returning the digit group.  The trailing parts of such patterns
    (backslash-s-star g? and similar) are nullable, so no backtracking into the
    digit group is needed. -/
def contDigits (lo hi : Nat) (l : Text) : Option Text :=
  let l3 := skipSpaces (skipOptColon (skipSpaces l))
  let ds := (takeDigitsUpTo hi l3).1
  if lo ≤ ds.length then some ds else none

/-- After a matched keyword: backslash-s-star [:：]? backslash-s-star ([+-]?d{lo,hi}),
    returning the signed digit group.  If a sign is present but not followed by
    a digit, the backtracked sign-less attempt faces the sign character and
    fails too, so the match fails. -/
def contSignedDigits (lo hi : Nat) (l : Text) : Option Text :=
  let l3 := skipSpaces (skipOptColon (skipSpaces l))
  match l3 with
  | [] => none
  | c :: cs =>
    if c = 0x2B ∨ c = 0x2D then
      let ds := (takeDigitsUpTo hi cs).1
      if lo ≤ ds.length then some (c :: ds) else none
    else
      let ds := (takeDigitsUpTo hi (c :: cs)).1
      if lo ≤ ds.length then some ds else none

/-- Tries the keyword alternatives in order at this position, each followed by
    the continuation (JS alternation backtracks into the continuation). -/
def matchLabeledAt (alts : List Text) (cont : Text → Option Text) (l : Text) :
    Option Text :=
  alts.findSome? fun a => (dropLit a l).bind cont

/-- Leftmost-match scan: tries the position matcher at every start position,
    left to right.  All embedded patterns need at least one character, so the
    final empty position never matches and is omitted. -/
def scanText (f : Text → Option α) : Text → Option α
  | [] => none
  | c :: cs =>
    match f (c :: cs) with
    | some x => some x
    | none => scanText f cs

/-- The list [k, k-1, ..., lo] (empty when k < lo): greedy quantifier lengths. -/
def descLens (k lo : Nat) : List Nat := ((List.range (k + 1)).drop lo).reverse

/-- Position matcher for /(d{3,6})s*g(?!/)/ : a greedy 3-6 digit group (lengths
    tried longest first, as the JS engine backtracks), spaces, the letter g, and
    a negative lookahead for a slash directly after the g. -/
def gBareAt (l : Text) : Option Text :=
  let ds := (takeDigitsUpTo 6 l).1
  (descLens ds.length 3).findSome? fun n =>
    match skipSpaces (l.drop n) with
    | [] => none
    | c :: cs =>
      if c = 0x67 then
        match cs with
        | [] => some (l.take n)
        | d :: _ => if d = 0x2F then none else some (l.take n)
      else none

/-- Position matcher for /([+-]d{1,6})s*(枚)?/ : required sign, 1-6 digits; the
    tail is nullable. -/
def diffBareAt (l : Text) : Option Text :=
  match l with
  | [] => none
  | c :: cs =>
    if c = 0x2B ∨ c = 0x2D then
      let ds := (takeDigitsUpTo 6 cs).1
      if 1 ≤ ds.length then some (c :: ds) else none
    else none

/-- Substring containment test (String.prototype.includes). -/
def occursIn (pat : Text) : Text → Bool
  | [] => pat.isEmpty
  | c :: cs => pat.isPrefixOf (c :: cs) || occursIn pat cs

/-- Removes every JS whitespace code point: replace(/s/g, ""). -/
def removeJsSpaces (l : Text) : Text := l.filter (fun c => !isJsSpace c)

/-- Numeric value of a digit sequence. -/
def digitsVal (l : Text) : Nat := l.foldl (fun a c => a * 10 + (c - 0x30)) 0

/-- parseInt(s, 10) on a well-formed optionally-signed digit sequence. -/
def digitsToInt : Text → Int
  | [] => 0
  | c :: cs =>
    if c = 0x2D then -(digitsVal cs : Int)
    else if c = 0x2B then (digitsVal cs : Int)
    else (digitsVal (c :: cs) : Int)

/-- parseFloat: optional leading whitespace and sign, then either the literal
    Infinity or a decimal significand with optional exponent; NaN when no digits
    are found.  Exact rational arithmetic (float rounding and overflow of huge
    exponents are not modelled). -/
def jsParseFloat (l : Text) : JSNum :=
  let l1 := l.dropWhile isJsSpace
  let sgn : Bool × Text :=
    match l1 with
    | [] => (false, [])
    | c :: cs =>
      if c = 0x2D then (true, cs) else if c = 0x2B then (false, cs) else (false, c :: cs)
  let neg := sgn.1
  let l2 := sgn.2
  if (codes "Infinity").isPrefixOf l2 then .inf (!neg)
  else
    let ip := l2.takeWhile isDigitC
    let l3 := l2.dropWhile isDigitC
    let fpr : Text × Text :=
      match l3 with
      | [] => ([], [])
      | c :: cs =>
        if c = 0x2E then (cs.takeWhile isDigitC, cs.dropWhile isDigitC) else ([], c :: cs)
    let fp := fpr.1
    let l4 := fpr.2
    if ip.isEmpty && fp.isEmpty then .nan
    else
      let base : ℚ := (digitsVal ip : ℚ) + (digitsVal fp : ℚ) / (10 ^ fp.length : ℚ)
      let e : ℤ :=
        match l4 with
        | [] => 0
        | c :: cs =>
          if c = 0x65 ∨ c = 0x45 then
            let es : Int × Text :=
              match cs with
              | [] => (1, [])
              | d :: ds =>
                if d = 0x2D then (-1, ds) else if d = 0x2B then (1, ds) else (1, d :: ds)
            let ed := es.2.takeWhile isDigitC
            if ed.isEmpty then 0 else es.1 * (digitsVal ed : Int)
          else 0
      let q := base * (10 : ℚ) ^ e
      .fin (if neg then -q else q)

/- ===================== Domain data types ===================== -/

/-- The six machine models of the preset table, in its insertion order. -/
inductive ModelKey where
  | myJugglerV
  | imJugglerEX
  | happyJugglerV3
  | funkyJuggler2
  | goGoJuggler3
  | mrJuggler
deriving DecidableEq

/-- The preset-table key string of a machine model. -/
def ModelKey.name : ModelKey → String
  | .myJugglerV => "マイジャグラーV"
  | .imJugglerEX => "SアイムジャグラーEX"
  | .happyJugglerV3 => "ハッピージャグラーVⅢ"
  | .funkyJuggler2 => "ファンキージャグラー2"
  | .goGoJuggler3 => "ゴーゴージャグラー3"
  | .mrJuggler => "ミスタージャグラー"

/-- The result record of parseFromText: each field present only when matched. -/
structure ParsedFields where
  modelKey : Option ModelKey
  G : Option Int
  big : Option Int
  reg : Option Int
  diff : Option Int
deriving DecidableEq

/-- A value held in a numeric input state: the user types strings, the OCR path
    stores numbers. -/
inductive InputVal where
  | str (s : String)
  | num (q : ℚ)
deriving DecidableEq

/-- The four session statistics inputs read by the calculation. -/
structure SessionStats where
  G : InputVal
  big : InputVal
  reg : InputVal
  diff : InputVal
deriving DecidableEq

/-- The nine editable preset constants read by the calculation. -/
structure PresetVals where
  replay : ℚ
  cherry : ℚ
  bell : ℚ
  piero : ℚ
  bigAvg : ℚ
  regAvg : ℚ
  cherryPay : ℚ
  bellPay : ℚ
  pieroPay : ℚ
deriving DecidableEq

/-- A capture-rate profile: the fraction of each small symbol the player collects. -/
structure Capture where
  cherry : ℚ
  bell : ℚ
  piero : ℚ
deriving DecidableEq

/-- The output of calcResultByCapture. -/
structure CalcResult where
  grapesCount : JSNum
  grapeProb : JSNum
deriving DecidableEq

/-- An entry of the strategy table. -/
structure Strategy where
  key : String
  label : String
  capture : Capture

/-- The mutable application state touched by loadPreset and the OCR merge:
    selected model, the four numeric inputs, and the nine editable constants. -/
structure AppState where
  modelKey : ModelKey
  G : InputVal
  big : InputVal
  reg : InputVal
  diff : InputVal
  replay : ℚ
  cherry : ℚ
  bell : ℚ
  piero : ℚ
  bigAvg : ℚ
  regAvg : ℚ
  cherryPay : ℚ
  bellPay : ℚ
  pieroPay : ℚ
deriving DecidableEq

/- ===================== src/src/App.tsx ===================== -/

namespace AppTsx

/-- The PRESETS table of src/src/App.tsx. -/
def PRESETS : ModelKey → PresetVals
  | .myJugglerV => ⟨7.298, 36, 1024, 1024, 239.25, 95.25, 2, 14, 10⟩
  | .imJugglerEX => ⟨7.298, 35.62, 1092.27, 1092.27, 251.25, 95.25, 2, 14, 10⟩
  | .happyJugglerV3 => ⟨7.298, 56.55, 655.36, 655.36, 239.7, 95.7, 4, 14, 10⟩
  | .funkyJuggler2 => ⟨7.298, 35.62, 1092.27, 1092.27, 239.25, 95.25, 2, 14, 10⟩
  | .goGoJuggler3 => ⟨7.298, 32.2, 1092.27, 1092.27, 239.25, 95.25, 2, 14, 10⟩
  | .mrJuggler => ⟨7.298, 37.24, 420, 655, 239.25, 95.25, 4, 14, 10⟩

/-- Object.keys(PRESETS): the table keys in insertion order. -/
def presetKeys : List ModelKey :=
  [.myJugglerV, .imJugglerEX, .happyJugglerV3, .funkyJuggler2, .goGoJuggler3, .mrJuggler]

/-- The STRATEGIES table of src/src/App.tsx. -/
def STRATEGIES : List Strategy :=
  [⟨"random", "適当打ち", ⟨0.667, 0.1, 0.05⟩⟩,
   ⟨"cherry90", "チェリー狙い(90%)", ⟨0.90, 0.05, 0.01⟩⟩,
   ⟨"cherry100", "チェリー狙い(100%)", ⟨1.00, 0, 0⟩⟩,
   ⟨"full", "完全攻略", ⟨1.00, 1.00, 1.00⟩⟩]

/-- numberOr: a number passes through; a string is comma-stripped and run
    through parseFloat; a non-finite result gives the fallback. -/
def numberOr (val : InputVal) (fallback : ℚ) : ℚ :=
  match val with
  | .num q => q
  | .str s =>
    match jsParseFloat (removeCommas (codes s)) with
    | .fin q => q
    | _ => fallback

/-- calcResultByCapture of src/src/App.tsx: the balance-equation solver. -/
def calcResultByCapture (st : SessionStats) (pv : PresetVals) (capture : Capture) :
    CalcResult :=
  let g : JSNum := .fin (numberOr st.G 0)
  let B : JSNum := .fin (numberOr st.big 0)
  let R : JSNum := .fin (numberOr st.reg 0)
  let D : JSNum := .fin (numberOr st.diff 0)
  let coinIn := JSNum.fin 3 * g - JSNum.fin 3 * (g / JSNum.fin pv.replay)
  let outBigReg := B * JSNum.fin pv.bigAvg + R * JSNum.fin pv.regAvg
  let outOthers :=
    (g / JSNum.fin pv.cherry) * JSNum.fin pv.cherryPay * JSNum.fin capture.cherry +
    (g / JSNum.fin pv.bell) * JSNum.fin pv.bellPay * JSNum.fin capture.bell +
    (g / JSNum.fin pv.piero) * JSNum.fin pv.pieroPay * JSNum.fin capture.piero
  let outKnown := outBigReg + outOthers
  let grapesCountRaw := (D + coinIn - outKnown) / JSNum.fin 8
  let grapesCount := JSNum.max2 (.fin 0) grapesCountRaw
  let grapeProb := if JSNum.gt grapesCount (.fin 0) then g / grapesCount else .inf true
  ⟨grapesCount, grapeProb⟩

/-- Model-name stage: first preset key whose lowercased, space-stripped form is
    contained in the space-stripped text. -/
def matchModelKey (text : Text) : Option ModelKey :=
  presetKeys.find? fun k =>
    occursIn (removeJsSpaces ((codes k.name).map jsToLower)) (removeJsSpaces text)

/-- Alternatives of (総?回転数|g数|回転数) in JS backtracking order. -/
def gAlt : List Text := [codes "総回転数", codes "回転数", codes "g数", codes "回転数"]

/-- Spin count: the labeled pattern wins, else the bare-digits fallback. -/
def matchG (text : Text) : Option Int :=
  match scanText (matchLabeledAt gAlt (contDigits 2 6)) text with
  | some ds => some (digitsToInt ds)
  | none => (scanText gBareAt text).map digitsToInt

/-- Alternatives of (bb|big|ビッグ). -/
def bbAlt : List Text := [codes "bb", codes "big", codes "ビッグ"]

/-- Tier-1 (BIG) count: labeled pattern only. -/
def matchBB (text : Text) : Option Int :=
  (scanText (matchLabeledAt bbAlt (contDigits 1 3)) text).map digitsToInt

/-- Alternatives of (rb|reg|レギュラー). -/
def rbAlt : List Text := [codes "rb", codes "reg", codes "レギュラー"]

/-- Tier-2 (REG) count: labeled pattern only. -/
def matchRB (text : Text) : Option Int :=
  (scanText (matchLabeledAt rbAlt (contDigits 1 3)) text).map digitsToInt

/-- Alternatives of (差枚(数)?|差玉|差枚数) in JS backtracking order. -/
def diffAlt : List Text := [codes "差枚数", codes "差枚", codes "差玉", codes "差枚数"]

/-- Net difference: the labeled signed pattern wins, else the bare signed fallback. -/
def matchDiff (text : Text) : Option Int :=
  match scanText (matchLabeledAt diffAlt (contSignedDigits 1 6)) text with
  | some ds => some (digitsToInt ds)
  | none => (scanText diffBareAt text).map digitsToInt

/-- parseFromText of src/src/App.tsx: normalize, match the model name and the
    four numeric fields, and return null when no numeric field matched. -/
def parseFromText (raw : String) : Option ParsedFields :=
  if raw = "" then none
  else
    let text := normalizeText (codes raw)
    let modelKey := matchModelKey text
    let G := matchG text
    let big := matchBB text
    let reg := matchRB text
    let diff := matchDiff text
    if G = none ∧ big = none ∧ reg = none ∧ diff = none then none
    else some ⟨modelKey, G, big, reg, diff⟩

end AppTsx

/- ===================== src/unnamed/part_000 ===================== -/

namespace Part000

/-- The PRESETS table of src/unnamed/part_000 (same entries as App.tsx). -/
def PRESETS : ModelKey → PresetVals
  | .myJugglerV => ⟨7.298, 36, 1024, 1024, 239.25, 95.25, 2, 14, 10⟩
  | .imJugglerEX => ⟨7.298, 35.62, 1092.27, 1092.27, 251.25, 95.25, 2, 14, 10⟩
  | .happyJugglerV3 => ⟨7.298, 56.55, 655.36, 655.36, 239.7, 95.7, 4, 14, 10⟩
  | .funkyJuggler2 => ⟨7.298, 35.62, 1092.27, 1092.27, 239.25, 95.25, 2, 14, 10⟩
  | .goGoJuggler3 => ⟨7.298, 32.2, 1092.27, 1092.27, 239.25, 95.25, 2, 14, 10⟩
  | .mrJuggler => ⟨7.298, 37.24, 420, 655, 239.25, 95.25, 4, 14, 10⟩

/-- Object.keys(PRESETS) of part_000. -/
def presetKeys : List ModelKey :=
  [.myJugglerV, .imJugglerEX, .happyJugglerV3, .funkyJuggler2, .goGoJuggler3, .mrJuggler]

/-- The STRATEGIES table of part_000 (same entries as App.tsx). -/
def STRATEGIES : List Strategy :=
  [⟨"random", "適当打ち", ⟨0.667, 0.1, 0.05⟩⟩,
   ⟨"cherry90", "チェリー狙い(90%)", ⟨0.90, 0.05, 0.01⟩⟩,
   ⟨"cherry100", "チェリー狙い(100%)", ⟨1.00, 0.00, 0.00⟩⟩,
   ⟨"full", "完全攻略", ⟨1.00, 1.00, 1.00⟩⟩]

/-- numberOr of part_000 (same body as App.tsx). -/
def numberOr (val : InputVal) (fallback : ℚ) : ℚ :=
  match val with
  | .num q => q
  | .str s =>
    match jsParseFloat (removeCommas (codes s)) with
    | .fin q => q
    | _ => fallback

/-- calcResultByCapture of part_000 (same body as App.tsx). -/
def calcResultByCapture (st : SessionStats) (pv : PresetVals) (capture : Capture) :
    CalcResult :=
  let g : JSNum := .fin (numberOr st.G 0)
  let B : JSNum := .fin (numberOr st.big 0)
  let R : JSNum := .fin (numberOr st.reg 0)
  let D : JSNum := .fin (numberOr st.diff 0)
  let coinIn := JSNum.fin 3 * g - JSNum.fin 3 * (g / JSNum.fin pv.replay)
  let outBigReg := B * JSNum.fin pv.bigAvg + R * JSNum.fin pv.regAvg
  let outOthers :=
    (g / JSNum.fin pv.cherry) * JSNum.fin pv.cherryPay * JSNum.fin capture.cherry +
    (g / JSNum.fin pv.bell) * JSNum.fin pv.bellPay * JSNum.fin capture.bell +
    (g / JSNum.fin pv.piero) * JSNum.fin pv.pieroPay * JSNum.fin capture.piero
  let outKnown := outBigReg + outOthers
  let grapesCountRaw := (D + coinIn - outKnown) / JSNum.fin 8
  let grapesCount := JSNum.max2 (.fin 0) grapesCountRaw
  let grapeProb := if JSNum.gt grapesCount (.fin 0) then g / grapesCount else .inf true
  ⟨grapesCount, grapeProb⟩

/-- loadPreset of part_000: selects the model, copies its nine constants into the
    editable state, and clears the four numeric inputs to blank strings. -/
def loadPreset (key : ModelKey) (s : AppState) : AppState :=
  let np := PRESETS key
  { s with
    modelKey := key
    replay := np.replay
    cherry := np.cherry
    bell := np.bell
    piero := np.piero
    bigAvg := np.bigAvg
    regAvg := np.regAvg
    cherryPay := np.cherryPay
    bellPay := np.bellPay
    pieroPay := np.pieroPay
    G := .str ""
    big := .str ""
    reg := .str ""
    diff := .str "" }

/-- The merge step of handleImageFiles of part_000, on a non-null parse result:
    a matched model name loads its preset first (clearing the inputs), then each
    present numeric field is stored.  The validity test PRESETS[parsed.modelKey]
    always succeeds, since parseFromText only returns keys of the table. -/
def applyParsed (p : ParsedFields) (s : AppState) : AppState :=
  let s1 := match p.modelKey with
    | some k => loadPreset k s
    | none => s
  { s1 with
    G := match p.G with | some n => .num n | none => s1.G
    big := match p.big with | some n => .num n | none => s1.big
    reg := match p.reg with | some n => .num n | none => s1.reg
    diff := match p.diff with | some n => .num n | none => s1.diff }

/-- Model-name stage of part_000 (same body as App.tsx). -/
def matchModelKey (text : Text) : Option ModelKey :=
  presetKeys.find? fun k =>
    occursIn (removeJsSpaces ((codes k.name).map jsToLower)) (removeJsSpaces text)

/-- Alternatives of (総?回転数|g数|回転数) in JS backtracking order. -/
def gAlt : List Text := [codes "総回転数", codes "回転数", codes "g数", codes "回転数"]

/-- Spin count matcher of part_000. -/
def matchG (text : Text) : Option Int :=
  match scanText (matchLabeledAt gAlt (contDigits 2 6)) text with
  | some ds => some (digitsToInt ds)
  | none => (scanText gBareAt text).map digitsToInt

/-- Alternatives of (bb|big|ビッグ). -/
def bbAlt : List Text := [codes "bb", codes "big", codes "ビッグ"]

/-- Tier-1 (BIG) count matcher of part_000. -/
def matchBB (text : Text) : Option Int :=
  (scanText (matchLabeledAt bbAlt (contDigits 1 3)) text).map digitsToInt

/-- Alternatives of (rb|reg|レギュラー). -/
def rbAlt : List Text := [codes "rb", codes "reg", codes "レギュラー"]

/-- Tier-2 (REG) count matcher of part_000. -/
def matchRB (text : Text) : Option Int :=
  (scanText (matchLabeledAt rbAlt (contDigits 1 3)) text).map digitsToInt

/-- Alternatives of (差枚(数)?|差玉|差枚数) in JS backtracking order. -/
def diffAlt : List Text := [codes "差枚数", codes "差枚", codes "差玉", codes "差枚数"]

/-- Net difference matcher of part_000. -/
def matchDiff (text : Text) : Option Int :=
  match scanText (matchLabeledAt diffAlt (contSignedDigits 1 6)) text with
  | some ds => some (digitsToInt ds)
  | none => (scanText diffBareAt text).map digitsToInt

/-- parseFromText of part_000 (same body as App.tsx). -/
def parseFromText (raw : String) : Option ParsedFields :=
  if raw = "" then none
  else
    let text := normalizeText (codes raw)
    let modelKey := matchModelKey text
    let G := matchG text
    let big := matchBB text
    let reg := matchRB text
    let diff := matchDiff text
    if G = none ∧ big = none ∧ reg = none ∧ diff = none then none
    else some ⟨modelKey, G, big, reg, diff⟩

end Part000

/- ===================== Further definitions used by the statements ===================== -/

/-- The isFinite test of the source's numberOr. -/
def JSNum.isFinite : JSNum → Bool
  | .fin _ => true
  | _ => false

/-- The composition of the charwise post-collapse normalization stages
    (fullwidth G, minus, plus, lowercase), used to reason about normalizeText. -/
def postChar (n : Nat) : Nat := jsToLower (fwPlus (fwMinus (fwG n)))

/- ===================== JSNum computation lemmas ===================== -/

namespace JSNum

@[simp] theorem fin_add_fin (a b : ℚ) : (fin a : JSNum) + fin b = fin (a + b) := rfl

@[simp] theorem fin_sub_fin (a b : ℚ) : (fin a : JSNum) - fin b = fin (a - b) := rfl

@[simp] theorem fin_mul_fin (a b : ℚ) : (fin a : JSNum) * fin b = fin (a * b) := rfl

@[simp] theorem nan_add (x : JSNum) : (nan : JSNum) + x = nan := by cases x <;> rfl

@[simp] theorem fin_add_nan (a : ℚ) : (fin a : JSNum) + nan = nan := rfl

@[simp] theorem fin_sub_nan (a : ℚ) : (fin a : JSNum) - nan = nan := rfl

@[simp] theorem nan_div (x : JSNum) : (nan : JSNum) / x = nan := by cases x <;> rfl

@[simp] theorem max2_fin_fin (a b : ℚ) : max2 (fin a) (fin b) = fin (max a b) := rfl

@[simp] theorem max2_fin_nan (a : ℚ) : max2 (fin a) nan = nan := by
  cases h : max2 (fin a) nan <;> simp_all [max2]

@[simp] theorem gt_nan_left (x : JSNum) : gt nan x = false := by cases x <;> rfl

@[simp] theorem gt_fin_fin (a b : ℚ) : gt (fin a) (fin b) = decide (b < a) := rfl

theorem fin_div_fin {b : ℚ} (a : ℚ) (h : b ≠ 0) : (fin a : JSNum) / fin b = fin (a / b) := by
  show div (fin a) (fin b) = _
  simp [div, h]

theorem fin_div_zero {a : ℚ} (h : 0 < a) : (fin a : JSNum) / fin 0 = inf true := by
  show div (fin a) (fin 0) = _
  simp [div, h, h.ne.symm]

theorem inf_mul_fin_pos {b : ℚ} (p : Bool) (h : 0 < b) :
    (inf p : JSNum) * fin b = inf p := by
  show mul (inf p) (fin b) = _
  simp [mul, h, h.ne.symm]

theorem inf_mul_fin_zero (p : Bool) : (inf p : JSNum) * fin 0 = nan := by
  show mul (inf p) (fin 0) = _
  simp [mul]

end JSNum

/- ===================== Calculation engine lemmas ===================== -/

/-- Closed-form evaluation of calcResultByCapture on numeric inputs when all four
    denominators are nonzero: every intermediate stays finite and the result is
    the balance formula of the specification. -/
theorem calcResultByCapture_num_spec (g B R D : ℚ) (pv : PresetVals) (cap : Capture)
    (hr : pv.replay ≠ 0) (hc : pv.cherry ≠ 0) (hb : pv.bell ≠ 0) (hp : pv.piero ≠ 0) :
    AppTsx.calcResultByCapture ⟨.num g, .num B, .num R, .num D⟩ pv cap =
      ⟨JSNum.fin (max 0 ((D + (3 * g - 3 * (g / pv.replay)) -
          (B * pv.bigAvg + R * pv.regAvg +
            (g / pv.cherry * pv.cherryPay * cap.cherry +
             g / pv.bell * pv.bellPay * cap.bell +
             g / pv.piero * pv.pieroPay * cap.piero))) / 8)),
       if 0 < max 0 ((D + (3 * g - 3 * (g / pv.replay)) -
          (B * pv.bigAvg + R * pv.regAvg +
            (g / pv.cherry * pv.cherryPay * cap.cherry +
             g / pv.bell * pv.bellPay * cap.bell +
             g / pv.piero * pv.pieroPay * cap.piero))) / 8)
       then JSNum.fin (g / max 0 ((D + (3 * g - 3 * (g / pv.replay)) -
          (B * pv.bigAvg + R * pv.regAvg +
            (g / pv.cherry * pv.cherryPay * cap.cherry +
             g / pv.bell * pv.bellPay * cap.bell +
             g / pv.piero * pv.pieroPay * cap.piero))) / 8))
       else JSNum.inf true⟩ := by
  have h8 : (8 : ℚ) ≠ 0 := by norm_num
  simp only [AppTsx.calcResultByCapture, AppTsx.numberOr]
  rw [JSNum.fin_div_fin g hr, JSNum.fin_div_fin g hc, JSNum.fin_div_fin g hb,
    JSNum.fin_div_fin g hp]
  simp only [JSNum.fin_mul_fin, JSNum.fin_add_fin, JSNum.fin_sub_fin]
  rw [JSNum.fin_div_fin _ h8]
  simp only [JSNum.max2_fin_fin, JSNum.gt_fin_fin, decide_eq_true_eq]
  split_ifs with h0
  · rw [JSNum.fin_div_fin g h0.ne.symm]
  · rfl

/-- numberOr on a number passes it through. -/
theorem numberOr_num (q fb : ℚ) : AppTsx.numberOr (.num q) fb = q := rfl

/-- numberOr on a string that does not parse to a finite number gives the fallback. -/
theorem numberOr_str_of_notFinite (s : String) (fb : ℚ)
    (h : (jsParseFloat (removeCommas (codes s))).isFinite = false) :
    AppTsx.numberOr (.str s) fb = fb := by
  rcases hj : jsParseFloat (removeCommas (codes s)) with q | p | _
  · rw [hj] at h
    simp [JSNum.isFinite] at h
  · simp [AppTsx.numberOr, hj]
  · simp [AppTsx.numberOr, hj]

/-- The engine reads the session statistics only through numberOr. -/
theorem calc_congr_numberOr (st1 st2 : SessionStats) (pv : PresetVals) (cap : Capture)
    (h1 : AppTsx.numberOr st1.G 0 = AppTsx.numberOr st2.G 0)
    (h2 : AppTsx.numberOr st1.big 0 = AppTsx.numberOr st2.big 0)
    (h3 : AppTsx.numberOr st1.reg 0 = AppTsx.numberOr st2.reg 0)
    (h4 : AppTsx.numberOr st1.diff 0 = AppTsx.numberOr st2.diff 0) :
    AppTsx.calcResultByCapture st1 pv cap = AppTsx.calcResultByCapture st2 pv cap := by
  simp only [AppTsx.calcResultByCapture, h1, h2, h3, h4]

/-- However the raw balance comes out, clamping gives NaN, plus infinity, or a
    nonnegative finite value. -/
theorem max2_zero_cases (raw : JSNum) :
    JSNum.max2 (.fin 0) raw = .nan ∨ JSNum.max2 (.fin 0) raw = .inf true ∨
      ∃ q : ℚ, 0 ≤ q ∧ JSNum.max2 (.fin 0) raw = .fin q := by
  rcases raw with q | p | _
  · exact Or.inr (Or.inr ⟨max 0 q, le_max_left 0 q, by simp⟩)
  · cases p
    · exact Or.inr (Or.inr ⟨0, le_refl 0, rfl⟩)
    · exact Or.inr (Or.inl rfl)
  · exact Or.inl (by simp)

/-- Whatever the clamped count is, the probability branch gives plus infinity or
    a finite value, never NaN. -/
theorem prob_branch_cases (g0 : ℚ) (count : JSNum) :
    (if JSNum.gt count (.fin 0) then JSNum.fin g0 / count else .inf true) = .inf true ∨
      ∃ q : ℚ, (if JSNum.gt count (.fin 0) then JSNum.fin g0 / count else .inf true) =
        .fin q := by
  rcases count with c | p | _
  · by_cases h0 : 0 < c
    · refine Or.inr ⟨g0 / c, ?_⟩
      rw [if_pos (by simpa [JSNum.gt] using h0), JSNum.fin_div_fin g0 h0.ne.symm]
    · exact Or.inl (by simp [JSNum.gt, h0])
  · cases p
    · exact Or.inl rfl
    · exact Or.inr ⟨0, rfl⟩
  · exact Or.inl rfl

/-- The result of the engine always has the shape: a clamped raw balance, and the
    probability branch computed from it. -/
theorem calc_shape (st : SessionStats) (pv : PresetVals) (cap : Capture) :
    ∃ raw : JSNum, AppTsx.calcResultByCapture st pv cap =
      ⟨JSNum.max2 (.fin 0) raw,
       if JSNum.gt (JSNum.max2 (.fin 0) raw) (.fin 0)
       then JSNum.fin (AppTsx.numberOr st.G 0) / JSNum.max2 (.fin 0) raw
       else .inf true⟩ :=
  ⟨_, rfl⟩

/- ===================== Normalization lemmas ===================== -/

theorem fwDigitToAscii_idem (n : Nat) :
    fwDigitToAscii (fwDigitToAscii n) = fwDigitToAscii n := by
  unfold fwDigitToAscii
  split_ifs <;> omega

theorem isWCT_false_iff (n : Nat) : isWCT n = false ↔ n ≠ 0x20 ∧ n ≠ 0x2C ∧ n ≠ 0x9 := by
  simp only [isWCT, Bool.or_eq_false_iff, decide_eq_false_iff_not]
  tauto

theorem postChar_space : postChar 0x20 = 0x20 := by decide

/-- A code point outside every special case of the post-collapse stages is fixed. -/
theorem postChar_fix_of_plain (m : Nat)
    (h1 : m ≠ 0xFF27) (h2 : m ≠ 0xFF0D) (h3 : m ≠ 0xFF0B)
    (h4 : ¬(0x41 ≤ m ∧ m ≤ 0x5A)) (h5 : ¬(0xFF21 ≤ m ∧ m ≤ 0xFF3A))
    (h6 : ¬(0x2160 ≤ m ∧ m ≤ 0x216F)) : postChar m = m := by
  unfold postChar fwG fwMinus fwPlus jsToLower
  rw [if_neg h1, if_neg h2, if_neg h3, if_neg h4, if_neg h5, if_neg h6]

/-- The possible outputs of the fused post-collapse stage: the input itself, one
    of the three replacement characters, or a lowercased letter. -/
theorem postChar_out (n : Nat) :
    postChar n = n ∨ postChar n = 0x67 ∨ postChar n = 0x2D ∨ postChar n = 0x2B ∨
      (0x61 ≤ postChar n ∧ postChar n ≤ 0x7A) ∨
      (0xFF41 ≤ postChar n ∧ postChar n ≤ 0xFF5A) ∨
      (0x2170 ≤ postChar n ∧ postChar n ≤ 0x217F) := by
  by_cases h1 : n = 0xFF27
  · subst h1
    exact Or.inr (Or.inl (by decide))
  by_cases h2 : n = 0xFF0D
  · subst h2
    exact Or.inr (Or.inr (Or.inl (by decide)))
  by_cases h3 : n = 0xFF0B
  · subst h3
    exact Or.inr (Or.inr (Or.inr (Or.inl (by decide))))
  have hpost : postChar n = jsToLower n := by
    unfold postChar fwG fwMinus fwPlus
    rw [if_neg h1, if_neg h2, if_neg h3]
  by_cases h4 : 0x41 ≤ n ∧ n ≤ 0x5A
  · have hj : jsToLower n = n + 0x20 := by
      unfold jsToLower
      rw [if_pos h4]
    rw [hpost, hj]
    exact Or.inr (Or.inr (Or.inr (Or.inr (Or.inl (by omega)))))
  by_cases h5 : 0xFF21 ≤ n ∧ n ≤ 0xFF3A
  · have hj : jsToLower n = n + 0x20 := by
      unfold jsToLower
      rw [if_neg h4, if_pos h5]
    rw [hpost, hj]
    exact Or.inr (Or.inr (Or.inr (Or.inr (Or.inr (Or.inl (by omega))))))
  by_cases h6 : 0x2160 ≤ n ∧ n ≤ 0x216F
  · have hj : jsToLower n = n + 0x10 := by
      unfold jsToLower
      rw [if_neg h4, if_neg h5, if_pos h6]
    rw [hpost, hj]
    exact Or.inr (Or.inr (Or.inr (Or.inr (Or.inr (Or.inr (by omega))))))
  have hj : jsToLower n = n := by
    unfold jsToLower
    rw [if_neg h4, if_neg h5, if_neg h6]
  rw [hpost, hj]
  exact Or.inl rfl

theorem postChar_fwDigit_fixed (n : Nat) (h : fwDigitToAscii n = n) :
    fwDigitToAscii (postChar n) = postChar n := by
  have hn : ¬(0xFF10 ≤ n ∧ n ≤ 0xFF19) := by
    unfold fwDigitToAscii at h
    by_contra hc
    rw [if_pos hc] at h
    omega
  have hne : ¬(0xFF10 ≤ postChar n ∧ postChar n ≤ 0xFF19) := by
    rcases postChar_out n with h0 | h0 | h0 | h0 | h0 | h0 | h0 <;> omega
  unfold fwDigitToAscii
  rw [if_neg hne]

theorem postChar_not_wct (n : Nat) (h : isWCT n = false) : isWCT (postChar n) = false := by
  rw [isWCT_false_iff] at h ⊢
  rcases postChar_out n with h0 | h0 | h0 | h0 | h0 | h0 | h0 <;> omega

theorem postChar_ne_comma (n : Nat) (h : isWCT n = false) : postChar n ≠ 0x2C := by
  have := postChar_not_wct n h
  rw [isWCT_false_iff] at this
  exact this.2.1

theorem postChar_idem (n : Nat) : postChar (postChar n) = postChar n := by
  rcases postChar_out n with h0 | h0 | h0 | h0 | h0 | h0 | h0
  · rw [h0, h0]
  · rw [h0]
    decide
  · rw [h0]
    decide
  · rw [h0]
    decide
  · exact postChar_fix_of_plain _ (by omega) (by omega) (by omega) (by omega) (by omega)
      (by omega)
  · exact postChar_fix_of_plain _ (by omega) (by omega) (by omega) (by omega) (by omega)
      (by omega)
  · exact postChar_fix_of_plain _ (by omega) (by omega) (by omega) (by omega) (by omega)
      (by omega)

/-- A member of a collapsed text is the space it inserts or a non-WCT member of
    the input. -/
theorem mem_collapseAux {c : Nat} :
    ∀ (l : Text) (b : Bool), c ∈ collapseAux l b → c = 0x20 ∨ (c ∈ l ∧ isWCT c = false) := by
  intro l
  induction l with
  | nil => intro b h; simp [collapseAux] at h
  | cons x xs ih =>
    intro b h
    by_cases hx : isWCT x
    · cases b with
      | false =>
        simp only [collapseAux, hx, if_true] at h
        rcases List.mem_cons.mp h with h1 | h1
        · exact Or.inl h1
        · rcases ih true h1 with h2 | h2
          · exact Or.inl h2
          · exact Or.inr ⟨List.mem_cons_of_mem x h2.1, h2.2⟩
      | true =>
        simp only [collapseAux, hx, if_true] at h
        rcases ih true h with h2 | h2
        · exact Or.inl h2
        · exact Or.inr ⟨List.mem_cons_of_mem x h2.1, h2.2⟩
    · have hx' : isWCT x = false := by simpa using hx
      simp only [collapseAux, hx', Bool.false_eq_true, if_false] at h
      rcases List.mem_cons.mp h with h1 | h1
      · exact Or.inr ⟨by simp [h1], by rwa [h1]⟩
      · rcases ih false h1 with h2 | h2
        · exact Or.inl h2
        · exact Or.inr ⟨List.mem_cons_of_mem x h2.1, h2.2⟩

/-- Collapsing is stable under a charwise map that fixes the space and preserves
    non-membership of the collapse class. -/
theorem collapseAux_map_fixed (f : Nat → Nat) (hsp : f 0x20 = 0x20)
    (hw : ∀ n, isWCT n = false → isWCT (f n) = false) :
    ∀ (l : Text) (b : Bool),
      collapseAux ((collapseAux l b).map f) b = (collapseAux l b).map f := by
  intro l
  induction l with
  | nil => intro b; rfl
  | cons x xs ih =>
    intro b
    by_cases hx : isWCT x
    · cases b with
      | false =>
        simp only [collapseAux, hx, if_true, List.map_cons, hsp, Bool.false_eq_true,
          if_false]
        have hsp2 : isWCT 0x20 = true := rfl
        simp only [collapseAux, hsp2, if_true, Bool.false_eq_true, if_false]
        rw [ih true]
      | true =>
        simp only [collapseAux, hx, if_true]
        exact ih true
    · have hx' : isWCT x = false := by simpa using hx
      simp only [collapseAux, hx', Bool.false_eq_true, if_false, List.map_cons]
      have hfx : isWCT (f x) = false := hw x hx'
      simp only [collapseAux, hfx, Bool.false_eq_true, if_false]
      rw [ih false]

/-- The collapsed text contains no commas, so the comma strip is the identity on it. -/
theorem removeCommas_collapse (l : Text) (b : Bool) :
    removeCommas (collapseAux l b) = collapseAux l b := by
  apply List.filter_eq_self.mpr
  intro a ha
  rcases mem_collapseAux _ _ ha with h | h
  · simp [h]
  · have := (isWCT_false_iff a).mp h.2
    simp [this.2.1]

/-- normalizeText as the collapse stage followed by one fused charwise map. -/
theorem normalizeText_eq_post (l : Text) :
    normalizeText l = (removeCommas (collapseWCT (l.map fwDigitToAscii))).map postChar := by
  simp only [normalizeText, List.map_map]
  rfl

/- ===================== Claims ===================== -/

/-- C1: for every finite numeric session input (G, B, R, D), every preset (its
    denominators nonzero, as the preset invariant guarantees) and every capture
    strategy, calcResultByCapture returns grapesCount = max 0 ((D + coinIn -
    outKnown) / 8) and grapeProb = G / grapesCount when the count is positive and
    plus infinity otherwise, with coinIn = 3 G - 3 (G / replay) and outKnown the
    jackpot payout plus the captured small-symbol payout. -/
theorem c1_reconcile_closed_form (g B R D : ℚ) (pv : PresetVals) (cap : Capture)
    (hr : pv.replay ≠ 0) (hc : pv.cherry ≠ 0) (hb : pv.bell ≠ 0) (hp : pv.piero ≠ 0) :
    AppTsx.calcResultByCapture ⟨.num g, .num B, .num R, .num D⟩ pv cap =
      ⟨JSNum.fin (max 0 ((D + (3 * g - 3 * (g / pv.replay)) -
          (B * pv.bigAvg + R * pv.regAvg +
            (g / pv.cherry * pv.cherryPay * cap.cherry +
             g / pv.bell * pv.bellPay * cap.bell +
             g / pv.piero * pv.pieroPay * cap.piero))) / 8)),
       if 0 < max 0 ((D + (3 * g - 3 * (g / pv.replay)) -
          (B * pv.bigAvg + R * pv.regAvg +
            (g / pv.cherry * pv.cherryPay * cap.cherry +
             g / pv.bell * pv.bellPay * cap.bell +
             g / pv.piero * pv.pieroPay * cap.piero))) / 8)
       then JSNum.fin (g / max 0 ((D + (3 * g - 3 * (g / pv.replay)) -
          (B * pv.bigAvg + R * pv.regAvg +
            (g / pv.cherry * pv.cherryPay * cap.cherry +
             g / pv.bell * pv.bellPay * cap.bell +
             g / pv.piero * pv.pieroPay * cap.piero))) / 8))
       else JSNum.inf true⟩ :=
  calcResultByCapture_num_spec g B R D pv cap hr hc hb hp

/-- C1 witness: the closed form at the マイジャグラーV preset, the 適当打ち
    capture profile, and the session 3000 spins, 10 + 10 jackpots, zero diff. -/
theorem c1_witness :
    ((AppTsx.PRESETS .myJugglerV).replay ≠ 0 ∧ (AppTsx.PRESETS .myJugglerV).cherry ≠ 0 ∧
     (AppTsx.PRESETS .myJugglerV).bell ≠ 0 ∧ (AppTsx.PRESETS .myJugglerV).piero ≠ 0) ∧
    AppTsx.calcResultByCapture ⟨.num 3000, .num 10, .num 10, .num 0⟩
        (AppTsx.PRESETS .myJugglerV) ⟨0.667, 0.1, 0.05⟩ =
      ⟨JSNum.fin (max 0 ((0 + (3 * 3000 - 3 * (3000 / (AppTsx.PRESETS .myJugglerV).replay)) -
          (10 * (AppTsx.PRESETS .myJugglerV).bigAvg + 10 * (AppTsx.PRESETS .myJugglerV).regAvg +
            (3000 / (AppTsx.PRESETS .myJugglerV).cherry * (AppTsx.PRESETS .myJugglerV).cherryPay * 0.667 +
             3000 / (AppTsx.PRESETS .myJugglerV).bell * (AppTsx.PRESETS .myJugglerV).bellPay * 0.1 +
             3000 / (AppTsx.PRESETS .myJugglerV).piero * (AppTsx.PRESETS .myJugglerV).pieroPay * 0.05))) / 8)),
       if 0 < max 0 ((0 + (3 * 3000 - 3 * (3000 / (AppTsx.PRESETS .myJugglerV).replay)) -
          (10 * (AppTsx.PRESETS .myJugglerV).bigAvg + 10 * (AppTsx.PRESETS .myJugglerV).regAvg +
            (3000 / (AppTsx.PRESETS .myJugglerV).cherry * (AppTsx.PRESETS .myJugglerV).cherryPay * 0.667 +
             3000 / (AppTsx.PRESETS .myJugglerV).bell * (AppTsx.PRESETS .myJugglerV).bellPay * 0.1 +
             3000 / (AppTsx.PRESETS .myJugglerV).piero * (AppTsx.PRESETS .myJugglerV).pieroPay * 0.05))) / 8)
       then JSNum.fin (3000 / max 0 ((0 + (3 * 3000 - 3 * (3000 / (AppTsx.PRESETS .myJugglerV).replay)) -
          (10 * (AppTsx.PRESETS .myJugglerV).bigAvg + 10 * (AppTsx.PRESETS .myJugglerV).regAvg +
            (3000 / (AppTsx.PRESETS .myJugglerV).cherry * (AppTsx.PRESETS .myJugglerV).cherryPay * 0.667 +
             3000 / (AppTsx.PRESETS .myJugglerV).bell * (AppTsx.PRESETS .myJugglerV).bellPay * 0.1 +
             3000 / (AppTsx.PRESETS .myJugglerV).piero * (AppTsx.PRESETS .myJugglerV).pieroPay * 0.05))) / 8))
       else JSNum.inf true⟩ :=
  ⟨⟨by norm_num [AppTsx.PRESETS], by norm_num [AppTsx.PRESETS],
    by norm_num [AppTsx.PRESETS], by norm_num [AppTsx.PRESETS]⟩,
   c1_reconcile_closed_form 3000 10 10 0 (AppTsx.PRESETS .myJugglerV) ⟨0.667, 0.1, 0.05⟩
     (by norm_num [AppTsx.PRESETS]) (by norm_num [AppTsx.PRESETS])
     (by norm_num [AppTsx.PRESETS]) (by norm_num [AppTsx.PRESETS])⟩

/-- C2 counterexample: with zero total spins but net difference 1000 (and zero
    jackpot counts), the engine returns grapesCount 125 — not zero — and grape
    probability 0 / 125 = 0 — not infinite. -/
theorem c2_counterexample :
    AppTsx.calcResultByCapture ⟨.num 0, .num 0, .num 0, .num 1000⟩
        (AppTsx.PRESETS .myJugglerV) ⟨0.667, 0.1, 0.05⟩ =
      ⟨JSNum.fin 125, JSNum.fin 0⟩ ∧
    JSNum.fin 125 ≠ JSNum.fin 0 ∧ JSNum.fin 0 ≠ JSNum.inf true := by
  refine ⟨?_, by norm_num, by simp⟩
  rw [calcResultByCapture_num_spec 0 0 0 1000 (AppTsx.PRESETS .myJugglerV)
    ⟨0.667, 0.1, 0.05⟩ (by norm_num [AppTsx.PRESETS]) (by norm_num [AppTsx.PRESETS])
    (by norm_num [AppTsx.PRESETS]) (by norm_num [AppTsx.PRESETS])]
  norm_num [AppTsx.PRESETS]

/-- C2 amended: with zero total spins, nonzero denominators, and a net difference
    not exceeding the known jackpot payout B bigAvg + R regAvg (in particular any
    nonpositive difference), the engine returns grapesCount 0 and an infinite
    probability, for every capture strategy. -/
theorem c2_amended_zero_spins (B R D : ℚ) (pv : PresetVals) (cap : Capture)
    (hr : pv.replay ≠ 0) (hc : pv.cherry ≠ 0) (hb : pv.bell ≠ 0) (hp : pv.piero ≠ 0)
    (hD : D ≤ B * pv.bigAvg + R * pv.regAvg) :
    AppTsx.calcResultByCapture ⟨.num 0, .num B, .num R, .num D⟩ pv cap =
      ⟨JSNum.fin 0, JSNum.inf true⟩ := by
  rw [calcResultByCapture_num_spec 0 B R D pv cap hr hc hb hp]
  simp only [mul_zero, zero_div, zero_mul, mul_comm, sub_zero, add_zero, zero_add,
    sub_self]
  have hle : (D - (B * pv.bigAvg + R * pv.regAvg)) / 8 ≤ 0 := by
    linarith
  rw [max_eq_left hle]
  simp

/-- C2 witness for the amended statement: zero spins, 10 + 10 jackpots, zero net
    difference at the マイジャグラーV preset. -/
theorem c2_witness :
    ((AppTsx.PRESETS .myJugglerV).replay ≠ 0 ∧ (AppTsx.PRESETS .myJugglerV).cherry ≠ 0 ∧
     (AppTsx.PRESETS .myJugglerV).bell ≠ 0 ∧ (AppTsx.PRESETS .myJugglerV).piero ≠ 0 ∧
     (0 : ℚ) ≤ 10 * (AppTsx.PRESETS .myJugglerV).bigAvg +
       10 * (AppTsx.PRESETS .myJugglerV).regAvg) ∧
    AppTsx.calcResultByCapture ⟨.num 0, .num 10, .num 10, .num 0⟩
        (AppTsx.PRESETS .myJugglerV) ⟨0.667, 0.1, 0.05⟩ =
      ⟨JSNum.fin 0, JSNum.inf true⟩ :=
  ⟨⟨by norm_num [AppTsx.PRESETS], by norm_num [AppTsx.PRESETS],
    by norm_num [AppTsx.PRESETS], by norm_num [AppTsx.PRESETS],
    by norm_num [AppTsx.PRESETS]⟩,
   c2_amended_zero_spins 10 10 0 (AppTsx.PRESETS .myJugglerV) ⟨0.667, 0.1, 0.05⟩
     (by norm_num [AppTsx.PRESETS]) (by norm_num [AppTsx.PRESETS])
     (by norm_num [AppTsx.PRESETS]) (by norm_num [AppTsx.PRESETS])
     (by norm_num [AppTsx.PRESETS])⟩

/-- C3 counterexample: on the ratio text 1/150G with no labeled spin count, the
    fallback pattern does match the ratio's denominator and sets spins to 150. -/
theorem c3_counterexample :
    AppTsx.parseFromText "1/150G" = some ⟨none, some 150, none, none, none⟩ := by
  decide

/-- C3 amended: the negative lookahead of the fallback only rejects a match whose
    unit letter is immediately followed by a slash; it does not protect against
    ratio expressions — extract on 1/150G sets spins to the ratio's denominator
    150, while extract on 150G/2 sets no field at all. -/
theorem c3_amended_slash_guard :
    AppTsx.parseFromText "1/150G" = some ⟨none, some 150, none, none, none⟩ ∧
    AppTsx.parseFromText "150G/2" = none := by
  exact ⟨by decide, by decide⟩

/-- C4 counterexample: a parse result carrying a model name and only a net
    difference, merged into a session with previously entered spins 3000, leaves
    the spins input cleared to the blank string instead of untouched. -/
theorem c4_counterexample :
    (Part000.applyParsed ⟨some .myJugglerV, none, none, none, some 500⟩
        ⟨.myJugglerV, .str "3000", .str "10", .str "10", .str "0",
         7.298, 36, 1024, 1024, 239.25, 95.25, 2, 14, 10⟩).G ≠
      (⟨.myJugglerV, .str "3000", .str "10", .str "10", .str "0",
        7.298, 36, 1024, 1024, 239.25, 95.25, 2, 14, 10⟩ : AppState).G := by
  decide

/-- C4 amended: when the extraction result carries no model name, every absent
    field leaves the previously entered session value unchanged; when it carries
    a matched model name, the preset load clears the four inputs first, so every
    absent field ends as the blank string rather than the prior value. -/
theorem c4_amended_merge (p : ParsedFields) (s : AppState) :
    (p.modelKey = none →
      ((p.G = none → (Part000.applyParsed p s).G = s.G) ∧
       (p.big = none → (Part000.applyParsed p s).big = s.big) ∧
       (p.reg = none → (Part000.applyParsed p s).reg = s.reg) ∧
       (p.diff = none → (Part000.applyParsed p s).diff = s.diff))) ∧
    (∀ k, p.modelKey = some k →
      ((p.G = none → (Part000.applyParsed p s).G = .str "") ∧
       (p.big = none → (Part000.applyParsed p s).big = .str "") ∧
       (p.reg = none → (Part000.applyParsed p s).reg = .str "") ∧
       (p.diff = none → (Part000.applyParsed p s).diff = .str ""))) := by
  constructor
  · intro hmk
    refine ⟨?_, ?_, ?_, ?_⟩ <;> intro hf <;>
      simp [Part000.applyParsed, hmk, hf]
  · intro k hmk
    refine ⟨?_, ?_, ?_, ?_⟩ <;> intro hf <;>
      simp [Part000.applyParsed, Part000.loadPreset, hmk, hf]

/-- C4 witness for the amended statement: a result with only a REG count and no
    model name preserves the prior spins entry. -/
theorem c4_witness :
    (⟨none, none, none, some 7, none⟩ : ParsedFields).modelKey = none ∧
    (⟨none, none, none, some 7, none⟩ : ParsedFields).G = none ∧
    (Part000.applyParsed ⟨none, none, none, some 7, none⟩
        ⟨.myJugglerV, .str "42", .str "1", .str "2", .str "3",
         7.298, 36, 1024, 1024, 239.25, 95.25, 2, 14, 10⟩).G =
      (⟨.myJugglerV, .str "42", .str "1", .str "2", .str "3",
        7.298, 36, 1024, 1024, 239.25, 95.25, 2, 14, 10⟩ : AppState).G :=
  ⟨rfl, rfl,
   ((c4_amended_merge ⟨none, none, none, some 7, none⟩
       ⟨.myJugglerV, .str "42", .str "1", .str "2", .str "3",
        7.298, 36, 1024, 1024, 239.25, 95.25, 2, 14, 10⟩).1 rfl).1 rfl⟩

/-- C5: with all else fixed (numeric inputs, a preset with nonzero denominators,
    any capture strategy), the inferred grape count is monotonically
    non-decreasing in the net difference. -/
theorem c5_grapes_monotone_in_diff (g B R D1 D2 : ℚ) (pv : PresetVals) (cap : Capture)
    (hr : pv.replay ≠ 0) (hc : pv.cherry ≠ 0) (hb : pv.bell ≠ 0) (hp : pv.piero ≠ 0)
    (hD : D1 ≤ D2) :
    ∃ c1 c2 : ℚ,
      (AppTsx.calcResultByCapture ⟨.num g, .num B, .num R, .num D1⟩ pv cap).grapesCount =
        .fin c1 ∧
      (AppTsx.calcResultByCapture ⟨.num g, .num B, .num R, .num D2⟩ pv cap).grapesCount =
        .fin c2 ∧
      c1 ≤ c2 := by
  have h1 := calcResultByCapture_num_spec g B R D1 pv cap hr hc hb hp
  have h2 := calcResultByCapture_num_spec g B R D2 pv cap hr hc hb hp
  refine ⟨_, _, by rw [h1], by rw [h2], ?_⟩
  apply max_le_max le_rfl
  apply div_le_div_of_nonneg_right ?_ (by norm_num)
  linarith

/-- C5 witness: monotonicity instantiated at differences -100 and 200 at the
    マイジャグラーV preset. -/
theorem c5_witness :
    ((AppTsx.PRESETS .myJugglerV).replay ≠ 0 ∧ (AppTsx.PRESETS .myJugglerV).cherry ≠ 0 ∧
     (AppTsx.PRESETS .myJugglerV).bell ≠ 0 ∧ (AppTsx.PRESETS .myJugglerV).piero ≠ 0 ∧
     (-100 : ℚ) ≤ 200) ∧
    ∃ c1 c2 : ℚ,
      (AppTsx.calcResultByCapture ⟨.num 3000, .num 10, .num 10, .num (-100)⟩
          (AppTsx.PRESETS .myJugglerV) ⟨0.667, 0.1, 0.05⟩).grapesCount = .fin c1 ∧
      (AppTsx.calcResultByCapture ⟨.num 3000, .num 10, .num 10, .num 200⟩
          (AppTsx.PRESETS .myJugglerV) ⟨0.667, 0.1, 0.05⟩).grapesCount = .fin c2 ∧
      c1 ≤ c2 :=
  ⟨⟨by norm_num [AppTsx.PRESETS], by norm_num [AppTsx.PRESETS],
    by norm_num [AppTsx.PRESETS], by norm_num [AppTsx.PRESETS], by norm_num⟩,
   c5_grapes_monotone_in_diff 3000 10 10 (-100) 200 (AppTsx.PRESETS .myJugglerV)
     ⟨0.667, 0.1, 0.05⟩ (by norm_num [AppTsx.PRESETS]) (by norm_num [AppTsx.PRESETS])
     (by norm_num [AppTsx.PRESETS]) (by norm_num [AppTsx.PRESETS]) (by norm_num)⟩

/-- C6: parseFromText returns null exactly when none of the four numeric field
    matchers finds anything in the normalized text — a matched model name alone
    does not prevent the null result — and otherwise returns the record holding
    exactly the matched fields; witnessed concretely by the model-name-only text
    マイジャグラーV, whose name matches yet whose parse is null. -/
theorem c6_null_iff_no_numeric_field :
    (∀ raw : String,
      AppTsx.parseFromText raw =
        if AppTsx.matchG (normalizeText (codes raw)) = none ∧
            AppTsx.matchBB (normalizeText (codes raw)) = none ∧
            AppTsx.matchRB (normalizeText (codes raw)) = none ∧
            AppTsx.matchDiff (normalizeText (codes raw)) = none
        then none
        else some ⟨AppTsx.matchModelKey (normalizeText (codes raw)),
                   AppTsx.matchG (normalizeText (codes raw)),
                   AppTsx.matchBB (normalizeText (codes raw)),
                   AppTsx.matchRB (normalizeText (codes raw)),
                   AppTsx.matchDiff (normalizeText (codes raw))⟩) ∧
    AppTsx.matchModelKey (normalizeText (codes "マイジャグラーV")) = some .myJugglerV ∧
    AppTsx.parseFromText "マイジャグラーV" = none := by
  refine ⟨?_, by decide, by decide⟩
  intro raw
  by_cases h : raw = ""
  · subst h
    decide
  · simp only [AppTsx.parseFromText, h, if_false]

/-- C7: a session statistics value whose comma-stripped text does not parse to a
    finite number is treated as 0 by the engine: for every strategy and preset,
    replacing such a value in any one field by the number 0 leaves the result of
    calcResultByCapture unchanged. -/
theorem c7_malformed_field_as_zero (st : SessionStats) (pv : PresetVals) (cap : Capture)
    (s : String) (h : (jsParseFloat (removeCommas (codes s))).isFinite = false) :
    AppTsx.calcResultByCapture { st with G := .str s } pv cap =
      AppTsx.calcResultByCapture { st with G := .num 0 } pv cap ∧
    AppTsx.calcResultByCapture { st with big := .str s } pv cap =
      AppTsx.calcResultByCapture { st with big := .num 0 } pv cap ∧
    AppTsx.calcResultByCapture { st with reg := .str s } pv cap =
      AppTsx.calcResultByCapture { st with reg := .num 0 } pv cap ∧
    AppTsx.calcResultByCapture { st with diff := .str s } pv cap =
      AppTsx.calcResultByCapture { st with diff := .num 0 } pv cap := by
  have h0 : AppTsx.numberOr (.str s) 0 = 0 := numberOr_str_of_notFinite s 0 h
  refine ⟨?_, ?_, ?_, ?_⟩ <;> apply calc_congr_numberOr <;>
    simp [h0, numberOr_num]

/-- C7 witness: the unparseable entry abc in the spins field behaves as 0. -/
theorem c7_witness :
    (jsParseFloat (removeCommas (codes "abc"))).isFinite = false ∧
    AppTsx.calcResultByCapture
        { (⟨.num 3000, .num 10, .num 10, .num 0⟩ : SessionStats) with G := .str "abc" }
        (AppTsx.PRESETS .myJugglerV) ⟨0.667, 0.1, 0.05⟩ =
      AppTsx.calcResultByCapture
        { (⟨.num 3000, .num 10, .num 10, .num 0⟩ : SessionStats) with G := .num 0 }
        (AppTsx.PRESETS .myJugglerV) ⟨0.667, 0.1, 0.05⟩ :=
  ⟨by decide,
   (c7_malformed_field_as_zero ⟨.num 3000, .num 10, .num 10, .num 0⟩
     (AppTsx.PRESETS .myJugglerV) ⟨0.667, 0.1, 0.05⟩ "abc" (by decide)).1⟩

/-- C8 counterexample: with the bell denominator edited to zero and the
    チェリー狙い(100%) strategy (bell capture 0), the engine returns grapesCount
    NaN — a value that is neither a finite number nor plus infinity — while the
    probability degrades to the infinite sentinel; no exception is modelled
    because the computation is total. -/
theorem c8_counterexample :
    AppTsx.calcResultByCapture ⟨.num 3000, .num 0, .num 0, .num 0⟩
        ⟨7.298, 36, 0, 1024, 239.25, 95.25, 2, 14, 10⟩ ⟨1, 0, 0⟩ =
      ⟨JSNum.nan, JSNum.inf true⟩ := by
  norm_num [AppTsx.calcResultByCapture, AppTsx.numberOr, JSNum.fin_div_fin,
    JSNum.fin_div_zero, JSNum.inf_mul_fin_pos, JSNum.inf_mul_fin_zero]

/-- C8 amended: the engine is total and never signals an error; for every input
    (including malformed strings and degenerate edited presets) grapesCount is
    NaN, plus infinity, or a nonnegative finite value — NaN is reachable, e.g.
    when a zero denominator meets a zero capture fraction — and grapeProb is
    always plus infinity or a finite value, never NaN. -/
theorem c8_amended_total_shape (st : SessionStats) (pv : PresetVals) (cap : Capture) :
    ((AppTsx.calcResultByCapture st pv cap).grapesCount = .nan ∨
     (AppTsx.calcResultByCapture st pv cap).grapesCount = .inf true ∨
     ∃ q : ℚ, 0 ≤ q ∧ (AppTsx.calcResultByCapture st pv cap).grapesCount = .fin q) ∧
    ((AppTsx.calcResultByCapture st pv cap).grapeProb = .inf true ∨
     ∃ q : ℚ, (AppTsx.calcResultByCapture st pv cap).grapeProb = .fin q) := by
  obtain ⟨raw, hshape⟩ := calc_shape st pv cap
  rw [hshape]
  exact ⟨max2_zero_cases raw, prob_branch_cases _ _⟩

/-- C9: the Stage-1 normalization (fullwidth digit and glyph conversion,
    whitespace-and-comma collapsing, comma stripping, case folding) is
    idempotent: applying it to its own output returns the same text. -/
theorem c9_normalization_idempotent (l : Text) :
    normalizeText (normalizeText l) = normalizeText l := by
  have hz : normalizeText l = (collapseAux (l.map fwDigitToAscii) false).map postChar := by
    rw [normalizeText_eq_post]
    show (removeCommas (collapseAux (l.map fwDigitToAscii) false)).map postChar = _
    rw [removeCommas_collapse]
  have hmem : ∀ c ∈ collapseAux (l.map fwDigitToAscii) false,
      fwDigitToAscii c = c ∧ isWCT (postChar c) = isWCT c := by
    intro c hc
    rcases mem_collapseAux _ _ hc with h | h
    · subst h
      exact ⟨by decide, by rw [postChar_space]⟩
    · constructor
      · rcases List.mem_map.mp h.1 with ⟨c0, _, hc0⟩
        rw [← hc0]
        exact fwDigitToAscii_idem c0
      · rw [postChar_not_wct c h.2, h.2]
  set z := collapseAux (l.map fwDigitToAscii) false with hzdef
  rw [hz, normalizeText_eq_post]
  have stepA : (z.map postChar).map fwDigitToAscii = z.map postChar := by
    rw [List.map_map]
    apply List.map_congr_left
    intro a ha
    show fwDigitToAscii (postChar a) = postChar a
    exact postChar_fwDigit_fixed a (hmem a ha).1
  rw [stepA]
  have stepB : collapseWCT (z.map postChar) = z.map postChar := by
    rw [hzdef]
    exact collapseAux_map_fixed postChar postChar_space postChar_not_wct _ false
  rw [stepB]
  have stepC : removeCommas (z.map postChar) = z.map postChar := by
    apply List.filter_eq_self.mpr
    intro a ha
    rcases List.mem_map.mp ha with ⟨c, hc, hca⟩
    subst hca
    rcases mem_collapseAux _ _ hc with h | h
    · rw [h, postChar_space]
      decide
    · simpa using postChar_ne_comma c h.2
  rw [stepC]
  rw [List.map_map]
  apply List.map_congr_left
  intro a _
  exact postChar_idem a

/-- C10: the two source variants implement extensionally equal cores — on every
    session input, preset, and capture profile the two calcResultByCapture
    functions agree, and on every raw text the two parseFromText functions
    agree. -/
theorem c10_variants_extensionally_equal :
    (∀ (st : SessionStats) (pv : PresetVals) (cap : Capture),
      AppTsx.calcResultByCapture st pv cap = Part000.calcResultByCapture st pv cap) ∧
    (∀ raw : String, AppTsx.parseFromText raw = Part000.parseFromText raw) :=
  ⟨fun _ _ _ => rfl, fun _ => rfl⟩
